import Mathlib

/-!
Shallow embedding of the document-to-text extraction subsystem of
`streamlit_lease` (`src/streamlit_lease/backend_utils/file_handlers.py`):
four file handlers (PDF, DOCX, TXT, CSV) and the dispatching factory.

Python exceptions are modelled with `Except PyExc`; a Python function that
may raise has an `Except`-valued embedding.  The external parsing libraries
(PyPDF2's `PdfReader`/`extract_text` and python-docx's `Document`) are not
part of the repository, so they enter as arbitrary deterministic functions
from the bytes read to either an exception or the list of per-page
(resp. per-paragraph) texts.  UTF-8 decoding (`bytes.decode("utf-8")`) is
modelled by an executable strict UTF-8 codec defined here.
-/

namespace StreamlitLease

/-- Raw bytes of an uploaded document; each entry is one byte value. -/
abbrev Bytes := List Nat

/-- The Python exceptions that can arise in this subsystem:
`UnicodeDecodeError` from `bytes.decode`, `ValueError` from the factory,
and any exception raised inside the external parsing libraries. -/
inductive PyExc
  | unicodeDecodeError
  | valueError (msg : String)
  | libError (msg : String)
deriving DecidableEq

/-- Strict UTF-8 encoding of a single Unicode scalar value. -/
def utf8EncodeChar (n : Nat) : List Nat :=
  if n < 0x80 then [n]
  else if n < 0x800 then [0xC0 + n / 0x40, 0x80 + n % 0x40]
  else if n < 0x10000 then
    [0xE0 + n / 0x1000, 0x80 + n / 0x40 % 0x40, 0x80 + n % 0x40]
  else
    [0xF0 + n / 0x40000, 0x80 + n / 0x1000 % 0x40, 0x80 + n / 0x40 % 0x40,
     0x80 + n % 0x40]

/-- Strict UTF-8 encoding of a character sequence. -/
def utf8EncodeList : List Char → List Nat
  | [] => []
  | c :: cs => utf8EncodeChar c.toNat ++ utf8EncodeList cs

/-- Strict UTF-8 encoding of a string. -/
def utf8Encode (s : String) : Bytes := utf8EncodeList s.data

/-- A UTF-8 continuation byte. -/
abbrev contByte (b : Nat) : Prop := 0x80 ≤ b ∧ b < 0xC0

/-- Decode one UTF-8-encoded scalar value from the front of a byte
sequence: the lead byte `b`, the remaining bytes `bs`.  Returns the code
point and the bytes after it, or `none` on a truncated sequence, a stray or
missing continuation byte, an overlong encoding, a surrogate code point or
a value above `0x10FFFF` — exactly the shapes Python's strict `"utf-8"`
codec rejects. -/
def decodeOne (b : Nat) (bs : List Nat) : Option (Nat × List Nat) :=
  if b < 0x80 then
    some (b, bs)
  else if b < 0xC0 then
    none
  else if b < 0xE0 then
    if 1 ≤ bs.length ∧ contByte (bs.headD 0) ∧
        0x80 ≤ (b - 0xC0) * 0x40 + (bs.headD 0 - 0x80) then
      some ((b - 0xC0) * 0x40 + (bs.headD 0 - 0x80), bs.tail)
    else none
  else if b < 0xF0 then
    if 2 ≤ bs.length ∧ contByte (bs.headD 0) ∧ contByte (bs.tail.headD 0) ∧
        0x800 ≤ (b - 0xE0) * 0x1000 + (bs.headD 0 - 0x80) * 0x40 +
          (bs.tail.headD 0 - 0x80) ∧
        ((b - 0xE0) * 0x1000 + (bs.headD 0 - 0x80) * 0x40 +
            (bs.tail.headD 0 - 0x80) < 0xD800 ∨
          0xDFFF < (b - 0xE0) * 0x1000 + (bs.headD 0 - 0x80) * 0x40 +
            (bs.tail.headD 0 - 0x80)) then
      some ((b - 0xE0) * 0x1000 + (bs.headD 0 - 0x80) * 0x40 +
        (bs.tail.headD 0 - 0x80), bs.tail.tail)
    else none
  else if b < 0xF8 then
    if 3 ≤ bs.length ∧ contByte (bs.headD 0) ∧ contByte (bs.tail.headD 0) ∧
        contByte (bs.tail.tail.headD 0) ∧
        0x10000 ≤ (b - 0xF0) * 0x40000 + (bs.headD 0 - 0x80) * 0x1000 +
          (bs.tail.headD 0 - 0x80) * 0x40 + (bs.tail.tail.headD 0 - 0x80) ∧
        (b - 0xF0) * 0x40000 + (bs.headD 0 - 0x80) * 0x1000 +
          (bs.tail.headD 0 - 0x80) * 0x40 + (bs.tail.tail.headD 0 - 0x80) <
          0x110000 then
      some ((b - 0xF0) * 0x40000 + (bs.headD 0 - 0x80) * 0x1000 +
        (bs.tail.headD 0 - 0x80) * 0x40 + (bs.tail.tail.headD 0 - 0x80),
        bs.tail.tail.tail)
    else none
  else none

/-- `decodeOne` only ever returns a suffix of its input. -/
theorem decodeOne_length {b : Nat} {bs : List Nat} {p : Nat × List Nat}
    (h : decodeOne b bs = some p) : p.2.length ≤ bs.length := by
  unfold decodeOne at h
  repeat' split at h
  all_goals (try exact Option.noConfusion h)
  all_goals injection h with h2
  all_goals subst h2
  all_goals simp only [List.length_tail]
  all_goals omega

/-- Strict UTF-8 decoding with explicit fuel; the fuel only serves
termination and is irrelevant as long as it covers the list length. -/
def decodeUtf8Fuel : Nat → List Nat → Option (List Char)
  | _, [] => some []
  | 0, _ :: _ => none
  | fuel + 1, b :: bs =>
    match decodeOne b bs with
    | some p => (decodeUtf8Fuel fuel p.2).map (fun cs => Char.ofNat p.1 :: cs)
    | none => none

/-- Strict UTF-8 decoding of a byte sequence to a character sequence. -/
def decodeUtf8Aux (bs : List Nat) : Option (List Char) :=
  decodeUtf8Fuel bs.length bs

/-- Any fuel at least the list length gives the same decoding result. -/
theorem decodeUtf8Fuel_irrel (f1 : Nat) :
    ∀ f2 bs, List.length bs ≤ f1 → List.length bs ≤ f2 →
      decodeUtf8Fuel f1 bs = decodeUtf8Fuel f2 bs := by
  induction f1 with
  | zero =>
    intro f2 bs h1 _
    cases bs with
    | nil => cases f2 <;> rfl
    | cons b bs => simp at h1
  | succ f1 ih =>
    intro f2 bs h1 h2
    cases bs with
    | nil => cases f2 <;> rfl
    | cons b bs =>
      cases f2 with
      | zero => simp at h2
      | succ f2 =>
        cases hd : decodeOne b bs with
        | none => simp only [decodeUtf8Fuel, hd]
        | some p =>
          have hp := decodeOne_length hd
          simp only [List.length_cons] at h1 h2
          simp only [decodeUtf8Fuel, hd]
          rw [ih f2 p.2 (by omega) (by omega)]

/-- Strict UTF-8 decoding of a byte sequence to a string. -/
def utf8Decode (bs : Bytes) : Option String :=
  (decodeUtf8Aux bs).map (fun cs => String.mk cs)

/-- An uploaded file as the handlers see it: a single-pass readable handle
over raw bytes, positioned somewhere in its content. -/
structure UploadedFile where
  content : Bytes
  pos : Nat
deriving DecidableEq

/-- Python's `file.read()`: everything from the current position on. -/
def UploadedFile.read (f : UploadedFile) : Bytes := f.content.drop f.pos

/-- A freshly opened byte source positioned at the start of its content. -/
def UploadedFile.fresh (bs : Bytes) : UploadedFile := ⟨bs, 0⟩

/-- Models Python's `bytes.decode("utf-8")`: the decoded string on valid
UTF-8 input, a raised `UnicodeDecodeError` otherwise. -/
def pyDecodeUtf8 (bs : Bytes) : Except PyExc String :=
  match utf8Decode bs with
  | some s => Except.ok s
  | none => Except.error PyExc.unicodeDecodeError

/-- The external parsing libraries (PyPDF2, python-docx) as the handlers
use them: a deterministic map from the bytes read out of the file to either
a raised exception or the list of per-page `extract_text()` results
(resp. per-paragraph `paragraph.text` values) in document order. -/
abbrev ParseLib := Bytes → Except PyExc (List String)

/-- The body of `PDFHandler.read_file` before its `try`/`except`:
`PdfReader(file)` plus the page loop.  Each `page_text` is appended to
`text` only when it is truthy (`if page_text:`), i.e. non-empty. -/
def PDFHandler.read_file_body (pdfLib : ParseLib) (file : UploadedFile) :
    Except PyExc String :=
  match pdfLib file.read with
  | Except.error e => Except.error e
  | Except.ok pages =>
    Except.ok (pages.foldl
      (fun text page_text => if page_text = "" then text else text ++ page_text) "")

/-- `PDFHandler.read_file`: the body wrapped in
`try ... except Exception: return ""`. -/
def PDFHandler.read_file (pdfLib : ParseLib) (file : UploadedFile) :
    Except PyExc String :=
  match PDFHandler.read_file_body pdfLib file with
  | Except.ok text => Except.ok text
  | Except.error _ => Except.ok ""

/-- The body of `DocxHandler.read_file` before its `try`/`except`:
`Document(file)` plus `" ".join(paragraph.text for paragraph in doc.paragraphs)`. -/
def DocxHandler.read_file_body (docxLib : ParseLib) (file : UploadedFile) :
    Except PyExc String :=
  match docxLib file.read with
  | Except.error e => Except.error e
  | Except.ok paragraphs => Except.ok (String.intercalate " " paragraphs)

/-- `DocxHandler.read_file`: the body wrapped in
`try ... except Exception: return ""`. -/
def DocxHandler.read_file (docxLib : ParseLib) (file : UploadedFile) :
    Except PyExc String :=
  match DocxHandler.read_file_body docxLib file with
  | Except.ok text => Except.ok text
  | Except.error _ => Except.ok ""

/-- `TxtHandler.read_file`: `file.read().decode('utf-8')` wrapped in
`try ... except Exception: return ""`. -/
def TxtHandler.read_file (file : UploadedFile) : Except PyExc String :=
  match pyDecodeUtf8 file.read with
  | Except.ok s => Except.ok s
  | Except.error _ => Except.ok ""

/-- `CSVFileHandler.read_file`: `file.read().decode('utf-8')` wrapped in
`try ... except UnicodeDecodeError: return None`.  Only the decode error is
caught; the success value is `some`, the caught-failure value is Python's
`None`, modelled as `none`. -/
def CSVFileHandler.read_file (file : UploadedFile) :
    Except PyExc (Option String) :=
  match pyDecodeUtf8 file.read with
  | Except.ok csv_data => Except.ok (some csv_data)
  | Except.error PyExc.unicodeDecodeError => Except.ok none
  | Except.error e => Except.error e

/-- The four file-handler classes produced by the factory. -/
inductive FileHandler
  | pdfHandler
  | docxHandler
  | txtHandler
  | csvHandler
deriving DecidableEq

/-- `FileHandlerFactory.get_file_handler`: the `if`/`elif` dispatch on the
MIME type, raising `ValueError("Invalid file type")` on anything else. -/
def FileHandlerFactory.get_file_handler (file_type : String) :
    Except PyExc FileHandler :=
  if file_type = "application/pdf" then
    Except.ok FileHandler.pdfHandler
  else if file_type =
      "application/vnd.openxmlformats-officedocument.wordprocessingml.document" then
    Except.ok FileHandler.docxHandler
  else if file_type = "text/plain" then
    Except.ok FileHandler.txtHandler
  else if file_type = "text/csv" then
    Except.ok FileHandler.csvHandler
  else
    Except.error (PyExc.valueError "Invalid file type")

/-- The four MIME types the factory recognizes, in dispatch order. -/
def supportedTypes : List String :=
  ["application/pdf",
   "application/vnd.openxmlformats-officedocument.wordprocessingml.document",
   "text/plain",
   "text/csv"]

/-- Equality of embedded Python results is decidable componentwise. -/
instance {e a : Type} [DecidableEq e] [DecidableEq a] :
    DecidableEq (Except e a) := fun x y =>
  match x, y with
  | Except.ok x1, Except.ok y1 =>
    if h : x1 = y1 then isTrue (by rw [h])
    else isFalse (fun hc => by injection hc; contradiction)
  | Except.error x1, Except.error y1 =>
    if h : x1 = y1 then isTrue (by rw [h])
    else isFalse (fun hc => by injection hc; contradiction)
  | Except.ok _, Except.error _ => isFalse (fun hc => Except.noConfusion hc)
  | Except.error _, Except.ok _ => isFalse (fun hc => Except.noConfusion hc)

/-- A value crossing the subsystem boundary: extracted text, or Python's
`None` (the CSV absent marker). -/
inductive ExtractResult
  | text (s : String)
  | absent
deriving DecidableEq

/-- Invoking the selected handler's `read_file` on a byte source, with the
result viewed uniformly at the subsystem boundary. -/
def FileHandler.extract (pdfLib docxLib : ParseLib) :
    FileHandler → UploadedFile → Except PyExc ExtractResult
  | FileHandler.pdfHandler, f =>
    (PDFHandler.read_file pdfLib f).map ExtractResult.text
  | FileHandler.docxHandler, f =>
    (DocxHandler.read_file docxLib f).map ExtractResult.text
  | FileHandler.txtHandler, f =>
    (TxtHandler.read_file f).map ExtractResult.text
  | FileHandler.csvHandler, f =>
    (CSVFileHandler.read_file f).map
      (fun r => match r with
        | some s => ExtractResult.text s
        | none => ExtractResult.absent)

/-- `decodeUtf8Aux` steps by one decoded scalar value. -/
theorem decodeUtf8Aux_step {b : Nat} {bs : List Nat} {p : Nat × List Nat}
    (h : decodeOne b bs = some p) :
    decodeUtf8Aux (b :: bs) =
      (decodeUtf8Aux p.2).map (fun cs => Char.ofNat p.1 :: cs) := by
  have hp := decodeOne_length h
  simp only [decodeUtf8Aux, List.length_cons, decodeUtf8Fuel, h]
  rw [decodeUtf8Fuel_irrel (List.length bs) (List.length p.2) p.2 hp (Nat.le_refl _)]

/-- Decoding the UTF-8 encoding of one character recovers that character
and leaves the remaining bytes intact. -/
theorem decodeUtf8Aux_encodeChar (c : Char) (rest : List Nat) :
    decodeUtf8Aux (utf8EncodeChar c.toNat ++ rest) =
      (decodeUtf8Aux rest).map (fun cs => c :: cs) := by
  have hv : c.toNat < 0xD800 ∨ (0xDFFF < c.toNat ∧ c.toNat < 0x110000) := c.valid
  rcases Nat.lt_or_ge c.toNat 0x80 with h1 | h1
  · have he : utf8EncodeChar c.toNat = [c.toNat] := by
      unfold utf8EncodeChar; rw [if_pos h1]
    have hd : decodeOne c.toNat rest = some (c.toNat, rest) := by
      unfold decodeOne; rw [if_pos h1]
    rw [he, List.cons_append, List.nil_append, decodeUtf8Aux_step hd]
    simp
  · rcases Nat.lt_or_ge c.toNat 0x800 with h2 | h2
    · have he : utf8EncodeChar c.toNat =
          [0xC0 + c.toNat / 0x40, 0x80 + c.toNat % 0x40] := by
        unfold utf8EncodeChar; rw [if_neg (by omega), if_pos h2]
      have hd : decodeOne (0xC0 + c.toNat / 0x40)
          ((0x80 + c.toNat % 0x40) :: rest) = some (c.toNat, rest) := by
        unfold decodeOne
        rw [if_neg (by omega), if_neg (by omega), if_pos (by omega)]
        rw [if_pos (by simp only [List.length_cons, List.headD_cons, contByte]; omega)]
        simp only [List.headD_cons, List.tail_cons]
        rw [show (0xC0 + c.toNat / 0x40 - 0xC0) * 0x40 +
          (0x80 + c.toNat % 0x40 - 0x80) = c.toNat by omega]
      rw [he, List.cons_append, List.cons_append, List.nil_append,
        decodeUtf8Aux_step hd]
      simp
    · rcases Nat.lt_or_ge c.toNat 0x10000 with h3 | h3
      · have he : utf8EncodeChar c.toNat =
            [0xE0 + c.toNat / 0x1000, 0x80 + c.toNat / 0x40 % 0x40,
             0x80 + c.toNat % 0x40] := by
          unfold utf8EncodeChar; rw [if_neg (by omega), if_neg (by omega), if_pos h3]
        have hd : decodeOne (0xE0 + c.toNat / 0x1000)
            ((0x80 + c.toNat / 0x40 % 0x40) :: (0x80 + c.toNat % 0x40) :: rest) =
            some (c.toNat, rest) := by
          unfold decodeOne
          rw [if_neg (by omega), if_neg (by omega), if_neg (by omega),
            if_pos (by omega)]
          rw [if_pos (by
            simp only [List.length_cons, List.headD_cons, List.tail_cons, contByte]
            omega)]
          simp only [List.headD_cons, List.tail_cons]
          rw [show (0xE0 + c.toNat / 0x1000 - 0xE0) * 0x1000 +
            (0x80 + c.toNat / 0x40 % 0x40 - 0x80) * 0x40 +
            (0x80 + c.toNat % 0x40 - 0x80) = c.toNat by omega]
        rw [he, List.cons_append, List.cons_append, List.cons_append,
          List.nil_append, decodeUtf8Aux_step hd]
        simp
      · have he : utf8EncodeChar c.toNat =
            [0xF0 + c.toNat / 0x40000, 0x80 + c.toNat / 0x1000 % 0x40,
             0x80 + c.toNat / 0x40 % 0x40, 0x80 + c.toNat % 0x40] := by
          unfold utf8EncodeChar
          rw [if_neg (by omega), if_neg (by omega), if_neg (by omega)]
        have hd : decodeOne (0xF0 + c.toNat / 0x40000)
            ((0x80 + c.toNat / 0x1000 % 0x40) :: (0x80 + c.toNat / 0x40 % 0x40) ::
              (0x80 + c.toNat % 0x40) :: rest) = some (c.toNat, rest) := by
          unfold decodeOne
          rw [if_neg (by omega), if_neg (by omega), if_neg (by omega),
            if_neg (by omega), if_pos (by omega)]
          rw [if_pos (by
            simp only [List.length_cons, List.headD_cons, List.tail_cons, contByte]
            omega)]
          simp only [List.headD_cons, List.tail_cons]
          rw [show (0xF0 + c.toNat / 0x40000 - 0xF0) * 0x40000 +
            (0x80 + c.toNat / 0x1000 % 0x40 - 0x80) * 0x1000 +
            (0x80 + c.toNat / 0x40 % 0x40 - 0x80) * 0x40 +
            (0x80 + c.toNat % 0x40 - 0x80) = c.toNat by omega]
        rw [he, List.cons_append, List.cons_append, List.cons_append,
          List.cons_append, List.nil_append, decodeUtf8Aux_step hd]
        simp

/-- Decoding the UTF-8 encoding of a character sequence recovers it. -/
theorem decodeUtf8Aux_encodeList (cs : List Char) :
    decodeUtf8Aux (utf8EncodeList cs) = some cs := by
  induction cs with
  | nil => rfl
  | cons c cs ih =>
    rw [utf8EncodeList, decodeUtf8Aux_encodeChar, ih]
    rfl

/-- The UTF-8 round trip: decoding the encoding of any string yields
exactly that string. -/
theorem utf8Decode_utf8Encode (s : String) : utf8Decode (utf8Encode s) = some s := by
  rw [utf8Decode, utf8Encode, decodeUtf8Aux_encodeList]
  rfl

/-- Folding string append from any accumulator prepends the accumulator. -/
theorem foldl_append_join (ts : List String) :
    ∀ acc : String, ts.foldl (fun r s => r ++ s) acc = acc ++ String.join ts := by
  induction ts with
  | nil =>
    intro acc
    simp [String.join]
  | cons t ts ih =>
    intro acc
    simp only [String.join, List.foldl] at *
    rw [ih (acc ++ t), ih ("" ++ t), String.empty_append, String.append_assoc]

/-- `String.join` of a cons. -/
theorem join_cons (t : String) (ts : List String) :
    String.join (t :: ts) = t ++ String.join ts := by
  show List.foldl (fun r s => r ++ s) ("" ++ t) ts = t ++ String.join ts
  rw [foldl_append_join, String.empty_append]

/-- The skip-empty page fold of `PDFHandler.read_file` computes plain
concatenation: an empty page text contributes nothing. -/
theorem foldl_skip_empty (ts : List String) :
    ∀ acc : String,
      ts.foldl (fun text page_text =>
        if page_text = "" then text else text ++ page_text) acc =
        acc ++ String.join ts := by
  induction ts with
  | nil =>
    intro acc
    simp [String.join]
  | cons t ts ih =>
    intro acc
    simp only [List.foldl]
    by_cases h : t = ""
    · rw [if_pos h, ih acc, h, join_cons, String.empty_append]
    · rw [if_neg h, ih (acc ++ t), join_cons, String.append_assoc]

/-- Removing an empty string from a list does not change its join. -/
theorem join_append_empty_cons (ts us : List String) :
    String.join (ts ++ "" :: us) = String.join (ts ++ us) := by
  induction ts with
  | nil => rw [List.nil_append, List.nil_append, join_cons, String.empty_append]
  | cons t ts ih => rw [List.cons_append, List.cons_append, join_cons, ih, join_cons]

/-- C1: for each of the four enumerated MIME identifiers,
`get_file_handler` returns the strategy bound to that format; for any other
string it fails with the `ValueError` that models `UnsupportedFormat`,
performing no extraction. -/
theorem claim_C1 (file_type : String) :
    (file_type = "application/pdf" →
      FileHandlerFactory.get_file_handler file_type =
        Except.ok FileHandler.pdfHandler) ∧
    (file_type =
        "application/vnd.openxmlformats-officedocument.wordprocessingml.document" →
      FileHandlerFactory.get_file_handler file_type =
        Except.ok FileHandler.docxHandler) ∧
    (file_type = "text/plain" →
      FileHandlerFactory.get_file_handler file_type =
        Except.ok FileHandler.txtHandler) ∧
    (file_type = "text/csv" →
      FileHandlerFactory.get_file_handler file_type =
        Except.ok FileHandler.csvHandler) ∧
    (file_type ∉ supportedTypes →
      FileHandlerFactory.get_file_handler file_type =
        Except.error (PyExc.valueError "Invalid file type")) := by
  refine ⟨?_, ?_, ?_, ?_, ?_⟩ <;> intro h
  · subst h; rfl
  · subst h; rfl
  · subst h; rfl
  · subst h; rfl
  · simp only [supportedTypes, List.mem_cons, List.not_mem_nil, or_false,
      not_or] at h
    obtain ⟨h1, h2, h3, h4⟩ := h
    rw [FileHandlerFactory.get_file_handler, if_neg h1, if_neg h2, if_neg h3,
      if_neg h4]

/-- Witness for C1 at two concrete identifiers: a recognized one and an
unrecognized one. -/
theorem claim_C1_witness :
    FileHandlerFactory.get_file_handler "text/plain" =
      Except.ok FileHandler.txtHandler ∧
    FileHandlerFactory.get_file_handler "image/png" =
      Except.error (PyExc.valueError "Invalid file type") :=
  ⟨(claim_C1 "text/plain").2.2.1 rfl, (claim_C1 "image/png").2.2.2.2 (by decide)⟩

/-- C2: for every strategy and every byte source, and whatever the parsing
libraries do (including raising), `extract` never propagates an exception:
it always returns a value. -/
theorem claim_C2 (pdfLib docxLib : ParseLib) (h : FileHandler)
    (f : UploadedFile) :
    ∃ r : ExtractResult,
      FileHandler.extract pdfLib docxLib h f = Except.ok r := by
  cases h with
  | pdfHandler =>
    cases hb : PDFHandler.read_file_body pdfLib f with
    | ok t =>
      exact ⟨ExtractResult.text t,
        by simp [FileHandler.extract, PDFHandler.read_file, Except.map, hb]⟩
    | error e =>
      exact ⟨ExtractResult.text "",
        by simp [FileHandler.extract, PDFHandler.read_file, Except.map, hb]⟩
  | docxHandler =>
    cases hb : DocxHandler.read_file_body docxLib f with
    | ok t =>
      exact ⟨ExtractResult.text t,
        by simp [FileHandler.extract, DocxHandler.read_file, Except.map, hb]⟩
    | error e =>
      exact ⟨ExtractResult.text "",
        by simp [FileHandler.extract, DocxHandler.read_file, Except.map, hb]⟩
  | txtHandler =>
    cases hd : utf8Decode f.read with
    | some s =>
      exact ⟨ExtractResult.text s,
        by simp [FileHandler.extract, TxtHandler.read_file, pyDecodeUtf8, Except.map, hd]⟩
    | none =>
      exact ⟨ExtractResult.text "",
        by simp [FileHandler.extract, TxtHandler.read_file, pyDecodeUtf8, Except.map, hd]⟩
  | csvHandler =>
    cases hd : utf8Decode f.read with
    | some s =>
      exact ⟨ExtractResult.text s,
        by simp [FileHandler.extract, CSVFileHandler.read_file, pyDecodeUtf8, Except.map, hd]⟩
    | none =>
      exact ⟨ExtractResult.absent,
        by simp [FileHandler.extract, CSVFileHandler.read_file, pyDecodeUtf8, Except.map, hd]⟩

/-- C3: on a well-formed PDF whose pages extract to `pages`, the PDF
strategy returns the concatenation of the page texts in order with no
separator; a page with empty text contributes nothing and does not break
the pages after it. -/
theorem claim_C3 (pdfLib : ParseLib) (f : UploadedFile) (pages : List String)
    (hparse : pdfLib f.read = Except.ok pages) :
    PDFHandler.read_file pdfLib f = Except.ok (String.join pages) ∧
    ∀ ts us, pages = ts ++ "" :: us →
      PDFHandler.read_file pdfLib f = Except.ok (String.join (ts ++ us)) := by
  have hbody : PDFHandler.read_file_body pdfLib f =
      Except.ok (String.join pages) := by
    simp only [PDFHandler.read_file_body, hparse]
    rw [foldl_skip_empty, String.empty_append]
  constructor
  · simp only [PDFHandler.read_file, hbody]
  · intro ts us hsplit
    subst hsplit
    simp only [PDFHandler.read_file, hbody, join_append_empty_cons]

/-- Witness for C3: a three-page PDF whose middle page has no text. -/
theorem claim_C3_witness :
    PDFHandler.read_file (fun _ => Except.ok ["ab", "", "cd"])
      (UploadedFile.fresh []) = Except.ok "abcd" := by
  have h := (claim_C3 (fun _ => Except.ok ["ab", "", "cd"])
    (UploadedFile.fresh []) ["ab", "", "cd"] rfl).2 ["ab"] ["cd"] rfl
  rw [h]
  rfl

/-- C4: the CSV strategy returns valid UTF-8 byte content decoded verbatim
(the encoding of any string maps back to exactly that string), and returns
the absent marker `none` — distinguishable from empty text — on invalid
UTF-8. -/
theorem claim_C4 (f : UploadedFile) :
    (∀ s : String, f.read = utf8Encode s →
      CSVFileHandler.read_file f = Except.ok (some s)) ∧
    (utf8Decode f.read = none →
      CSVFileHandler.read_file f = Except.ok (none : Option String) ∧
      CSVFileHandler.read_file f ≠ Except.ok (some "")) := by
  constructor
  · intro s hs
    simp [CSVFileHandler.read_file, pyDecodeUtf8, hs, utf8Decode_utf8Encode]
  · intro hd
    simp [CSVFileHandler.read_file, pyDecodeUtf8, hd]

/-- Witness for C4: a valid UTF-8 CSV round-trips; the invalid byte `0xFF`
yields the absent marker. -/
theorem claim_C4_witness :
    CSVFileHandler.read_file (UploadedFile.fresh (utf8Encode "a,b")) =
      Except.ok (some "a,b") ∧
    CSVFileHandler.read_file (UploadedFile.fresh [0xFF]) =
      Except.ok (none : Option String) :=
  ⟨(claim_C4 (UploadedFile.fresh (utf8Encode "a,b"))).1 "a,b" rfl,
   ((claim_C4 (UploadedFile.fresh [0xFF])).2 rfl).1⟩

/-- C5: on a well-formed Word document whose paragraphs extract to
`paragraphs`, the Word strategy returns the paragraph texts in document
order joined with a single space and no leading or trailing separator. -/
theorem claim_C5 (docxLib : ParseLib) (f : UploadedFile)
    (paragraphs : List String)
    (hparse : docxLib f.read = Except.ok paragraphs) :
    DocxHandler.read_file docxLib f =
      Except.ok (String.intercalate " " paragraphs) := by
  simp [DocxHandler.read_file, DocxHandler.read_file_body, hparse]

/-- Witness for C5: the paragraphs `["Hello", "world"]` yield exactly
`"Hello world"`. -/
theorem claim_C5_witness :
    DocxHandler.read_file (fun _ => Except.ok ["Hello", "world"])
      (UploadedFile.fresh []) = Except.ok "Hello world" := by
  have h := claim_C5 (fun _ => Except.ok ["Hello", "world"])
    (UploadedFile.fresh []) ["Hello", "world"] rfl
  rw [h]
  rfl

/-- C6: the plain-text strategy returns valid UTF-8 byte content decoded
exactly (the encoding of any string maps back to that string) and returns
empty text — without raising — on invalid UTF-8. -/
theorem claim_C6 (f : UploadedFile) :
    (∀ s : String, f.read = utf8Encode s →
      TxtHandler.read_file f = Except.ok s) ∧
    (utf8Decode f.read = none → TxtHandler.read_file f = Except.ok "") := by
  constructor
  · intro s hs
    simp [TxtHandler.read_file, pyDecodeUtf8, hs, utf8Decode_utf8Encode]
  · intro hd
    simp [TxtHandler.read_file, pyDecodeUtf8, hd]

/-- Witness for C6: a valid UTF-8 text round-trips; the invalid lone
continuation byte `0x80` yields empty text. -/
theorem claim_C6_witness :
    TxtHandler.read_file (UploadedFile.fresh (utf8Encode "hi there")) =
      Except.ok "hi there" ∧
    TxtHandler.read_file (UploadedFile.fresh [0x80]) = Except.ok "" :=
  ⟨(claim_C6 (UploadedFile.fresh (utf8Encode "hi there"))).1 "hi there" rfl,
   (claim_C6 (UploadedFile.fresh [0x80])).2 rfl⟩

/-- C7: when the PDF library raises on the byte content (corrupt structure,
encryption, any unsupported feature), the PDF strategy returns empty text
as a successful result instead of propagating the exception. -/
theorem claim_C7 (pdfLib : ParseLib) (f : UploadedFile) (e : PyExc)
    (hparse : pdfLib f.read = Except.error e) :
    PDFHandler.read_file pdfLib f = Except.ok "" := by
  simp [PDFHandler.read_file, PDFHandler.read_file_body, hparse]

/-- Witness for C7: a library that raises on every input still produces a
successful empty-text result. -/
theorem claim_C7_witness :
    PDFHandler.read_file (fun _ => Except.error (PyExc.libError "corrupt"))
      (UploadedFile.fresh [0x25, 0x50, 0x44, 0x46]) = Except.ok "" :=
  claim_C7 (fun _ => Except.error (PyExc.libError "corrupt"))
    (UploadedFile.fresh [0x25, 0x50, 0x44, 0x46]) (PyExc.libError "corrupt") rfl

/-- C8: the factory's mapping is total over the four enumerated identifiers,
one-to-one on them (distinct identifiers get distinct strategies), and
outside the set it fails explicitly. -/
theorem claim_C8 :
    (∀ t ∈ supportedTypes, ∃ h : FileHandler,
      FileHandlerFactory.get_file_handler t = Except.ok h) ∧
    (∀ t1 ∈ supportedTypes, ∀ t2 ∈ supportedTypes, t1 ≠ t2 →
      FileHandlerFactory.get_file_handler t1 ≠
        FileHandlerFactory.get_file_handler t2) ∧
    (∀ t, t ∉ supportedTypes →
      FileHandlerFactory.get_file_handler t =
        Except.error (PyExc.valueError "Invalid file type")) := by
  refine ⟨?_, ?_, ?_⟩
  · intro t ht
    fin_cases ht
    · exact ⟨FileHandler.pdfHandler, rfl⟩
    · exact ⟨FileHandler.docxHandler, rfl⟩
    · exact ⟨FileHandler.txtHandler, rfl⟩
    · exact ⟨FileHandler.csvHandler, rfl⟩
  · intro t1 h1 t2 h2
    fin_cases h1 <;> fin_cases h2 <;> intro hne <;>
      first
      | exact absurd rfl hne
      | decide
  · intro t ht
    simp only [supportedTypes, List.mem_cons, List.not_mem_nil, or_false,
      not_or] at ht
    obtain ⟨h1, h2, h3, h4⟩ := ht
    rw [FileHandlerFactory.get_file_handler, if_neg h1, if_neg h2, if_neg h3,
      if_neg h4]

/-- Witness for C8: totality at `"text/csv"`, distinctness of the PDF and
CSV bindings, explicit failure at `"application/json"`. -/
theorem claim_C8_witness :
    (∃ h : FileHandler,
      FileHandlerFactory.get_file_handler "text/csv" = Except.ok h) ∧
    FileHandlerFactory.get_file_handler "application/pdf" ≠
      FileHandlerFactory.get_file_handler "text/csv" ∧
    FileHandlerFactory.get_file_handler "application/json" =
      Except.error (PyExc.valueError "Invalid file type") :=
  ⟨claim_C8.1 "text/csv" (by decide),
   claim_C8.2.1 "application/pdf" (by decide) "text/csv" (by decide) (by decide),
   claim_C8.2.2 "application/json" (by decide)⟩

/-- C9: extraction is a deterministic function of the byte source: two
sources carrying identical byte content at the same read position produce
identical outputs for every strategy — no hidden state affects results. -/
theorem claim_C9 (pdfLib docxLib : ParseLib) (h : FileHandler)
    (f1 f2 : UploadedFile) (hc : f1.content = f2.content)
    (hp : f1.pos = f2.pos) :
    FileHandler.extract pdfLib docxLib h f1 =
      FileHandler.extract pdfLib docxLib h f2 := by
  cases f1
  cases f2
  cases hc
  cases hp
  rfl

/-- Witness for C9: two independent fresh reads over the same CSV bytes. -/
theorem claim_C9_witness :
    FileHandler.extract (fun _ => Except.ok []) (fun _ => Except.ok [])
        FileHandler.csvHandler (UploadedFile.fresh (utf8Encode "x,y")) =
      FileHandler.extract (fun _ => Except.ok []) (fun _ => Except.ok [])
        FileHandler.csvHandler (UploadedFile.fresh (utf8Encode "x,y")) :=
  claim_C9 (fun _ => Except.ok []) (fun _ => Except.ok [])
    FileHandler.csvHandler (UploadedFile.fresh (utf8Encode "x,y"))
    (UploadedFile.fresh (utf8Encode "x,y")) rfl rfl

/-- C10: the Word strategy does not skip empty-text paragraphs — each one
occupies a position in the single-space join, so `["Hello", "", "world"]`
yields `"Hello  world"` with two consecutive spaces — unlike the PDF
strategy, which omits pages yielding no text and gives `"Helloworld"` on
the same texts. -/
theorem claim_C10 (pdfLib docxLib : ParseLib) (f : UploadedFile)
    (hdocx : docxLib f.read = Except.ok ["Hello", "", "world"])
    (hpdf : pdfLib f.read = Except.ok ["Hello", "", "world"]) :
    DocxHandler.read_file docxLib f = Except.ok "Hello  world" ∧
    PDFHandler.read_file pdfLib f = Except.ok "Helloworld" := by
  constructor
  · simp only [DocxHandler.read_file, DocxHandler.read_file_body, hdocx]
    rfl
  · simp only [PDFHandler.read_file, PDFHandler.read_file_body, hpdf]
    rfl

/-- Witness for C10 at concrete libraries returning those texts. -/
theorem claim_C10_witness :
    DocxHandler.read_file (fun _ => Except.ok ["Hello", "", "world"])
      (UploadedFile.fresh []) = Except.ok "Hello  world" ∧
    PDFHandler.read_file (fun _ => Except.ok ["Hello", "", "world"])
      (UploadedFile.fresh []) = Except.ok "Helloworld" :=
  claim_C10 (fun _ => Except.ok ["Hello", "", "world"])
    (fun _ => Except.ok ["Hello", "", "world"]) (UploadedFile.fresh []) rfl rfl

end StreamlitLease
